import Mathlib

/-!
Shallow embedding of the per-thread input ring buffer (`src/input.cpp`,
`asynclog::detail::thread_input_buffer`) and the thread-local holder
(`src/include/asynclog/detail/thread_object.hpp`, `thread_object`).

Pointers into the ring buffer are modelled as byte offsets from `pbegin_`
(so `pbegin_` itself is offset 0).  `std::size_t` arithmetic is modelled
as `Nat` with explicit `% 2^64` where the C++ computation can wrap.
-/

namespace Asynclog

/-- Number of values of `std::size_t` (64-bit). -/
def WSIZE : Nat := 2 ^ 64

/-- Bitwise complement `~m` of a `std::size_t` value, i.e. xor with all
64 one bits. -/
def cppNot64 (m : Nat) : Nat := (WSIZE - 1) ^^^ (m % WSIZE)

/-- The size rounding performed by `allocate_input_frame` and
`discard_input_frame`: `size = (size + mask) & ~mask` in `std::size_t`
arithmetic (src/input.cpp lines 129-130 and 29-30). -/
def roundUpMask (s mask : Nat) : Nat := ((s + mask) % WSIZE) &&& cppNot64 mask

/-- The least multiple of `a` that is `>= s` (the spec's
`ceil(s, FRAME_ALIGNMENT)`), stated from the spec's words for
comparison with `roundUpMask`. -/
def leastAlignedGe (a s : Nat) : Nat := a * ((s + a - 1) / a)

/-- State of a `thread_input_buffer`.  `pinputStart`, `pinputEnd` and
`pcommitEnd` are byte offsets from `pbegin_`. -/
structure Ring where
  size : Nat
  frameAlignmentMask : Nat
  pinputStart : Nat
  pinputEnd : Nat
  pcommitEnd : Nat
  deriving Repr, DecidableEq

/-- The constructor (src/input.cpp lines 4-14): stores the
`frame_alignment` argument into `frame_alignment_mask_` and starts all
three pointers at `pbegin_` (offset 0). -/
def mkRing (size frame_alignment : Nat) : Ring :=
  { size := size
    frameAlignmentMask := frame_alignment
    pinputStart := 0
    pinputEnd := 0
    pcommitEnd := 0 }

/-- `advance_frame_pointer` (src/input.cpp lines 73-84) on offsets:
`p += distance; remaining = size_ - (p - pbegin_);` where `remaining`
has type `std::size_t` (unsigned, hence the `% WSIZE`);
`if (remaining == 0) p = pbegin_;`. -/
def advance_frame_pointer (size p distance : Nat) : Nat :=
  let p' := p + distance
  let remaining := (size + WSIZE - p' % WSIZE) % WSIZE
  if remaining = 0 then 0 else p'

/-- The condition of `assert(remaining >= 0)` in `advance_frame_pointer`
(src/input.cpp line 80), where `remaining` is the `std::size_t` value
`size_ - (p - pbegin_)` after `p += distance`. -/
def advance_assert_cond (size p distance : Nat) : Bool :=
  let p' := p + distance
  let remaining := (size + WSIZE - p' % WSIZE) % WSIZE
  decide (0 ≤ remaining)

/-- Outcome of one iteration of the `while(true)` loop of
`allocate_input_frame`: either a frame is served (returning `ret`, the
old tail; setting `pinput_end_` to `newEnd`; possibly storing
`WRAPAROUND_MARKER` at offset `markerAt` first), or the producer blocks
in `wait_input_consumed` and retries. -/
inductive AllocResult where
  | serve (ret newEnd : Nat) (markerAt : Option Nat)
  | block
  deriving Repr, DecidableEq

/-- One iteration of the allocation loop of `allocate_input_frame`
(src/input.cpp lines 131-195), applied to the already rounded size `n`.
`free = pinput_start - pinput_end` is a `ptrdiff_t` (signed), hence the
`Int` subtraction; `free1` and `free2` are `std::size_t`. -/
def alloc_step (r : Ring) (n : Nat) : AllocResult :=
  let pinput_end := r.pinputEnd
  let pinput_start := r.pinputStart
  let free : Int := (pinput_start : Int) - (pinput_end : Int)
  if 0 < free then
    -- Free space is contiguous.
    if (n : Int) < free then
      AllocResult.serve pinput_end (advance_frame_pointer r.size pinput_end n) none
    else AllocResult.block
  else
    -- Free space is non-contiguous.
    let free1 : Nat := (r.size + WSIZE - pinput_end % WSIZE) % WSIZE
    if n < free1 then
      AllocResult.serve pinput_end (advance_frame_pointer r.size pinput_end n) none
    else
      let free2 : Nat := pinput_start
      if n < free2 then
        AllocResult.serve 0 (advance_frame_pointer r.size 0 n) (some pinput_end)
      else AllocResult.block

/-- `allocate_input_frame` (src/input.cpp lines 111-196): round the
request with `frame_alignment_mask_`, then run (one iteration of) the
allocation loop. -/
def allocate_input_frame_step (r : Ring) (s : Nat) : AllocResult :=
  alloc_step r (roundUpMask s r.frameAlignmentMask)

/-- Applying a served allocation to the ring state (the assignment to
`pinput_end_` inside `allocate_input_frame`). -/
def apply_alloc (r : Ring) : AllocResult → Ring
  | AllocResult.serve _ newEnd _ => { r with pinputEnd := newEnd }
  | AllocResult.block => r

/-- `discard_input_frame` (src/input.cpp lines 27-40): round the size,
advance `pinput_start_`, signal the event; returns the new head. -/
def discard_input_frame (r : Ring) (s : Nat) : Ring × Nat :=
  let s' := roundUpMask s r.frameAlignmentMask
  let p := advance_frame_pointer r.size r.pinputStart s'
  ({ r with pinputStart := p }, p)

/-- `wraparound` (src/input.cpp lines 42-51): reset `pinput_start_` to
`pbegin_`. -/
def wraparound (r : Ring) : Ring :=
  { r with pinputStart := 0 }

/-- Producer-side observable events of `wait_input_consumed`:
a `plog_->commit()` call or a wait on `input_consumed_event_`. -/
inductive PEvent where
  | commit
  | wait
  deriving Repr, DecidableEq

/-- `wait_input_consumed` (src/input.cpp lines 86-104) as the sequence
of its observable effects: commit first iff
`pcommit_end_ == pinput_start_`, then always wait on the event. -/
def wait_input_consumed (r : Ring) : List PEvent :=
  if r.pcommitEnd = r.pinputStart then [PEvent.commit, PEvent.wait]
  else [PEvent.wait]

/-- Observable events of the destructor: the initial `plog_->commit()`,
each `wait_input_consumed()` call of the drain loop (abbreviated to one
event), and the final `free(pbegin_)`. -/
inductive DEvent where
  | commit
  | wait
  | free
  deriving Repr, DecidableEq

/-- The drain loop of the destructor (src/input.cpp lines 21-24), fed
the successive values the relaxed loads of `pinput_start_` observe (the
consumer may advance the head between iterations).  When an observed
head equals `pinput_end_` the loop exits and `free(pbegin_)` runs;
otherwise the iteration calls `wait_input_consumed`.  An exhausted
observation list means the consumer never drained the ring within the
window: the loop is still spinning and nothing further is emitted. -/
def drain_loop (pend : Nat) : List Nat → List DEvent
  | [] => []
  | s :: rest =>
      if s = pend then [DEvent.free]
      else DEvent.wait :: drain_loop pend rest

/-- The destructor `~thread_input_buffer` (src/input.cpp lines 16-25):
`plog_->commit()`, then the drain loop over the observed head values
(the first observation being the head at entry), then `free`. -/
def ring_destructor (r : Ring) (obs : List Nat) : List DEvent :=
  DEvent.commit :: drain_loop r.pinputEnd (r.pinputStart :: obs)

/-!
Model of `thread_object<T, Args...>`
(src/include/asynclog/detail/thread_object.hpp).

The pthread thread-specific slot of the holder's one key is a map from
thread id to the stored pointer (`none` models the null pointer that
`pthread_getspecific` returns before any `pthread_setspecific` on that
thread).  `new holder(...)` is modelled by a monotone counter handing
out distinct nonzero addresses: two live objects never share an
address. -/
structure TOState where
  slots : Nat → Option Nat
  next : Nat

/-- Holder state right after `thread_object`'s constructor: every
thread's slot is null; addresses start at 1 (0 models `nullptr`). -/
def TOState.init : TOState := { slots := fun _ => none, next := 1 }

/-- `thread_object::get` (thread_object.hpp lines 76-84) running on
thread `tid`, success path of `create_and_get`: read the slot with
`pthread_getspecific`; if non-null return it, else allocate a fresh
`holder`, store it with `pthread_setspecific`, and return it. -/
def TOState.get (st : TOState) (tid : Nat) : Nat × TOState :=
  match st.slots tid with
  | some p => (p, st)
  | none =>
      (st.next,
       { slots := fun t => if t = tid then some st.next else st.slots t
         next := st.next + 1 })

/-- The per-thread destructor `thread_object::destroy`
(thread_object.hpp lines 113-145) run at exit of thread `tid`: the
object is deleted and the slot ends up null. -/
def TOState.texit (st : TOState) (tid : Nat) : TOState :=
  { st with slots := fun t => if t = tid then none else st.slots t }

/-- Interleaved operations on the holder: a `get()` call or a thread
exit, each tagged with the thread performing it. -/
inductive TOp where
  | get (tid : Nat)
  | texit (tid : Nat)
  deriving Repr, DecidableEq

/-- Run a sequence of holder operations (discarding `get` results). -/
def runOps (st : TOState) : List TOp → TOState
  | [] => st
  | TOp.get tid :: rest => runOps (st.get tid).2 rest
  | TOp.texit tid :: rest => runOps (st.texit tid) rest

/-- Linux value of `ENOMEM`. -/
def ENOMEM : Nat := 12

/-- Errors `create_and_get` can raise: `std::bad_alloc` (the
allocation error) or `std::system_error(code)`. -/
inductive CreateError where
  | allocError
  | systemError (code : Nat)
  deriving Repr, DecidableEq

/-- The tail of `thread_object::create_and_get` (thread_object.hpp
lines 97-104) as a function of the fresh pointer `p` and the result
code of `pthread_setspecific`: 0 returns `p`, `ENOMEM` raises the
allocation error, any other code raises a system error carrying it. -/
def create_and_get_outcome (p result : Nat) : Except CreateError Nat :=
  if result = 0 then Except.ok p
  else if result = ENOMEM then Except.error CreateError.allocError
  else Except.error (CreateError.systemError result)

/-! ### Arithmetic helpers -/

/-- The `std::size_t` subtraction `a - b` agrees with `Nat` subtraction
whenever `b ≤ a < 2^64`. -/
lemma wsub_mod (a b : Nat) (hba : b ≤ a) (ha : a < WSIZE) :
    (a + WSIZE - b % WSIZE) % WSIZE = a - b := by
  have hb : b % WSIZE = b := Nat.mod_eq_of_lt (lt_of_le_of_lt hba ha)
  rw [hb]
  have h1 : a + WSIZE - b = a - b + WSIZE := by omega
  rw [h1, Nat.add_mod_right, Nat.mod_eq_of_lt (by omega)]

/-- In-range normal form of `advance_frame_pointer`. -/
lemma advance_frame_pointer_eq (size p d : Nat) (h : p + d ≤ size)
    (hw : size < WSIZE) :
    advance_frame_pointer size p d = if p + d = size then 0 else p + d := by
  simp only [advance_frame_pointer]
  rw [wsub_mod size (p + d) h hw]
  rcases Nat.lt_or_ge (p + d) size with hlt | hge
  · rw [if_neg (by omega), if_neg (by omega)]
  · have heq : p + d = size := le_antisymm h hge
    rw [if_pos (by omega), if_pos heq]

/-! ### Claim theorems -/

/-- C1: the claim says `allocate_input_frame` rounds a request `s` up to
the least multiple of `FRAME_ALIGNMENT` that is `>= s`, using a stored
mask equal to `FRAME_ALIGNMENT - 1`.  The constructor in fact stores the
alignment itself (`frame_alignment_mask_(frame_alignment)`, input.cpp
line 7), so the round-up `(s + mask) & ~mask` is wrong: with alignment
16 and request 1 it yields 1, not the least multiple 16.  Storing the
mask the claim specifies (`16 - 1`) would yield 16. -/
theorem mask_stored_without_minus_one :
    (mkRing 64 16).frameAlignmentMask = 16 ∧
    roundUpMask 1 (mkRing 64 16).frameAlignmentMask = 1 ∧
    leastAlignedGe 16 1 = 16 ∧
    (1 : Nat) ≠ 16 ∧
    roundUpMask 1 (16 - 1) = 16 := by decide

/-- C2: the claimed alignment invariant fails on the code.  On a fresh
ring of size 64 and alignment 16, `allocate_input_frame(17)` rounds to
33 (because of the mask slip of C1), serving offset 0 and leaving the
tail at offset 33; the next `allocate_input_frame(1)` then returns
offset 33, and `33 mod 16 ≠ 0`. -/
theorem alloc_returns_unaligned_address :
    allocate_input_frame_step (mkRing 64 16) 17 = AllocResult.serve 0 33 none ∧
    (apply_alloc (mkRing 64 16) (AllocResult.serve 0 33 none)).pinputEnd = 33 ∧
    allocate_input_frame_step
      (apply_alloc (mkRing 64 16) (AllocResult.serve 0 33 none)) 1 =
      AllocResult.serve 33 34 none ∧
    ¬ (33 % 16 = 0) := by decide

/-- C3: `allocate_input_frame` serves a request only under strict
inequality.  If the rounded size `N` exactly equals the contiguous free
space (`pinput_end < pinput_start` and `N = pinput_start - pinput_end`),
or in the split case neither segment strictly exceeds `N`
(`free1 = size - pinput_end ≤ N` and `free2 = pinput_start ≤ N`), the
loop iteration blocks in `wait_input_consumed` instead of serving. -/
theorem exact_fit_blocks (r : Ring) (s N : Nat)
    (hN : roundUpMask s r.frameAlignmentMask = N)
    (hend : r.pinputEnd ≤ r.size) (hw : r.size < WSIZE)
    (hcase :
      (r.pinputEnd < r.pinputStart ∧ N = r.pinputStart - r.pinputEnd) ∨
      (r.pinputStart ≤ r.pinputEnd ∧ r.size - r.pinputEnd ≤ N ∧
        r.pinputStart ≤ N)) :
    allocate_input_frame_step r s = AllocResult.block := by
  simp only [allocate_input_frame_step, alloc_step, hN]
  rcases hcase with ⟨hlt, hfree⟩ | ⟨hle, h1, h2⟩
  · rw [if_pos (by omega), if_neg (by omega)]
  · rw [if_neg (by omega), wsub_mod r.size r.pinputEnd hend hw,
      if_neg (by omega), if_neg (by omega)]

/-- Witness for C3, the spec's scenario S2: an empty ring of size 64 and
alignment 16 refuses an exact-fit request of 64 bytes. -/
theorem exact_fit_blocks_witness :
    allocate_input_frame_step (mkRing 64 16) 64 = AllocResult.block :=
  exact_fit_blocks (mkRing 64 16) 64 64 (by decide) (by decide) (by decide)
    (Or.inr ⟨by decide, by decide, by decide⟩)

/-- C7: `advance_frame_pointer p d` returns `p + d` except that when
`p + d` equals `pbegin + size` (offset `size`) it wraps to `pbegin`
(offset 0); in particular the result never equals offset `size`, and
since `discard_input_frame` moves the head only through
`advance_frame_pointer` (as `allocate_input_frame` moves the tail), the
head is never left at `pbegin + size`. -/
theorem advance_wraps_at_end (size p d : Nat) (h : p + d ≤ size)
    (hpos : 0 < size) (hw : size < WSIZE) :
    advance_frame_pointer size p d = (if p + d = size then 0 else p + d) ∧
    advance_frame_pointer size p d ≠ size ∧
    (∀ (r : Ring) (s : Nat), r.size = size →
      r.pinputStart + roundUpMask s r.frameAlignmentMask ≤ size →
      (discard_input_frame r s).1.pinputStart ≠ size) := by
  refine ⟨advance_frame_pointer_eq size p d h hw, ?_, ?_⟩
  · rw [advance_frame_pointer_eq size p d h hw]
    split
    · omega
    · omega
  · intro r s hr hb
    simp only [discard_input_frame]
    rw [hr, advance_frame_pointer_eq size r.pinputStart
      (roundUpMask s r.frameAlignmentMask) hb hw]
    split
    · omega
    · omega

/-- Witness for C7: with size 64, advancing offset 48 by 16 lands
exactly on the end and wraps to 0. -/
theorem advance_wraps_at_end_witness :
    advance_frame_pointer 64 48 16 = (if 48 + 16 = 64 then 0 else 48 + 16) :=
  (advance_wraps_at_end 64 48 16 (by decide) (by decide) (by decide)).1

/-- C8: the claim says the overflow assertion in
`advance_frame_pointer` fails whenever `p + d` exceeds `pbegin + size`.
In the code `remaining` has the unsigned type `std::size_t`, so the
condition of `assert(remaining >= 0)` is true for every input; in
particular it is true at the overflow input `size = 64`, `p = 48`,
`d = 32` where the claim requires it to be false. -/
theorem advance_assert_never_fails :
    (∀ size p d : Nat, advance_assert_cond size p d = true) ∧
    48 + 32 > 64 ∧ advance_assert_cond 64 48 32 = true := by
  refine ⟨?_, by decide, by decide⟩
  intro size p d
  simp [advance_assert_cond]

/-- C4: `wait_input_consumed` calls `plog_->commit()` before waiting on
the event if and only if `pcommit_end_ == pinput_start_` at entry, and
in every case the last thing it does is wait on `input_consumed_event_`
(so when the pointers differ the trace is just the wait, with no
commit). -/
theorem wait_commit_iff (r : Ring) :
    (PEvent.commit ∈ wait_input_consumed r ↔ r.pcommitEnd = r.pinputStart) ∧
    (wait_input_consumed r).getLast? = some PEvent.wait ∧
    (¬ r.pcommitEnd = r.pinputStart →
      wait_input_consumed r = [PEvent.wait]) := by
  by_cases h : r.pcommitEnd = r.pinputStart <;>
    refine ⟨?_, ?_, ?_⟩ <;> simp [wait_input_consumed, h]

/-- Witness for C4: a fresh ring has `pcommit_end_ == pinput_start_`, so
its first blocked wait is preceded by a commit. -/
theorem wait_commit_iff_witness :
    PEvent.commit ∈ wait_input_consumed (mkRing 64 16) :=
  (wait_commit_iff (mkRing 64 16)).1.mpr rfl

/-- C5: in the split-free case (`pinput_start ≤ pinput_end`), when the
rounded size `N` does not fit in the first segment
(`free1 = size - pinput_end ≤ N`) but fits strictly in the second
(`N < free2 = pinput_start`), the iteration stores `WRAPAROUND_MARKER`
at the current `pinput_end`, sets `pinput_end` to
`advance_frame_pointer(pbegin, N)` — that is `pbegin + N`, wrapping to
`pbegin` if it equals `pbegin + size`, which here reduces to offset `N`
since `N < size` — and returns `pbegin` (offset 0). -/
theorem wraparound_marker_branch (r : Ring) (s N : Nat)
    (hN : roundUpMask s r.frameAlignmentMask = N)
    (hord : r.pinputStart ≤ r.pinputEnd)
    (hend : r.pinputEnd ≤ r.size) (hw : r.size < WSIZE)
    (h1 : r.size - r.pinputEnd ≤ N)
    (h2 : N < r.pinputStart) :
    allocate_input_frame_step r s =
      AllocResult.serve 0 (advance_frame_pointer r.size 0 N)
        (some r.pinputEnd) ∧
    advance_frame_pointer r.size 0 N = N := by
  constructor
  · simp only [allocate_input_frame_step, alloc_step, hN]
    rw [if_neg (by omega), wsub_mod r.size r.pinputEnd hend hw,
      if_neg (by omega), if_pos h2]
  · rw [advance_frame_pointer_eq r.size 0 N (by omega) hw]
    rw [if_neg (by omega)]
    omega

/-- Witness for C5, the spec's scenario S3: ring of size 128, alignment
16, head at 64, tail at 112; a request of 32 writes the marker at 112,
sets the tail to 32 and returns `pbegin`. -/
theorem wraparound_marker_branch_witness :
    allocate_input_frame_step
      { mkRing 128 16 with pinputStart := 64, pinputEnd := 112 } 32 =
      AllocResult.serve 0 (advance_frame_pointer 128 0 32) (some 112) ∧
    advance_frame_pointer 128 0 32 = 32 :=
  wraparound_marker_branch
    { mkRing 128 16 with pinputStart := 64, pinputEnd := 112 } 32 32
    (by decide) (by decide) (by decide) (by decide) (by decide) (by decide)

/-- Positions of `free` and `wait` in a drain loop trace are justified
by the observed head value at that iteration. -/
lemma drain_loop_get? (pend : Nat) (l : List Nat) :
    ∀ j, ((drain_loop pend l).get? j = some DEvent.free →
            l.get? j = some pend) ∧
         ((drain_loop pend l).get? j = some DEvent.wait →
            ∃ s, l.get? j = some s ∧ s ≠ pend) := by
  induction l with
  | nil => intro j; simp [drain_loop]
  | cons s rest ih =>
      intro j
      by_cases h : s = pend
      · subst h
        cases j with
        | zero => simp [drain_loop]
        | succ j => simp [drain_loop]
      · cases j with
        | zero =>
            refine ⟨?_, ?_⟩
            · intro hf
              simp [drain_loop, h] at hf
            · intro _
              exact ⟨s, rfl, h⟩
        | succ j =>
            have hj := ih j
            simpa [drain_loop, h] using hj

/-- C6: the destructor's trace starts with `plog_->commit()`; every
later position is a `free(pbegin_)` only if the head observed at that
iteration equals `pinput_end_` (the ring is drained), and is a wait on
`input_consumed_event_` only if the observed head differs from
`pinput_end_` — so the buffer is never freed while
`pinput_start_ != pinput_end_`. -/
theorem destructor_drains_before_free (r : Ring) (obs : List Nat) :
    (ring_destructor r obs).head? = some DEvent.commit ∧
    (∀ j, (ring_destructor r obs).get? (j + 1) = some DEvent.free →
      (r.pinputStart :: obs).get? j = some r.pinputEnd) ∧
    (∀ j, (ring_destructor r obs).get? (j + 1) = some DEvent.wait →
      ∃ s, (r.pinputStart :: obs).get? j = some s ∧ s ≠ r.pinputEnd) := by
  refine ⟨rfl, ?_, ?_⟩
  · intro j hj
    exact (drain_loop_get? r.pinputEnd (r.pinputStart :: obs) j).1
      (by simpa [ring_destructor] using hj)
  · intro j hj
    exact (drain_loop_get? r.pinputEnd (r.pinputStart :: obs) j).2
      (by simpa [ring_destructor] using hj)

/-- Witness for C6: a ring with tail 32 and head 0, whose consumer is
observed at head 16 and then 32, commits first; the free event sits at
the position where the observed head reached the tail. -/
theorem destructor_drains_before_free_witness :
    (({ mkRing 64 16 with pinputEnd := 32 } : Ring).pinputStart ::
        [16, 32]).get? 2 = some 32 :=
  (destructor_drains_before_free
      { mkRing 64 16 with pinputEnd := 32 } [16, 32]).2.1 2 (by decide)

/-! ### Thread-local holder lemmas -/

/-- Well-formedness of a holder state: every stored pointer is non-null
and was handed out by the allocation counter, and no two threads' slots
hold the same pointer (two live `holder` objects have distinct
addresses). -/
def TOValid (st : TOState) : Prop :=
  0 < st.next ∧
  (∀ t p, st.slots t = some p → 0 < p ∧ p < st.next) ∧
  (∀ t₁ t₂ p, st.slots t₁ = some p → st.slots t₂ = some p → t₁ = t₂)

lemma get_eq_of_some (st : TOState) (tid p : Nat)
    (h : st.slots tid = some p) : st.get tid = (p, st) := by
  simp [TOState.get, h]

lemma get_eq_of_none (st : TOState) (tid : Nat) (h : st.slots tid = none) :
    st.get tid = (st.next,
      { slots := fun t => if t = tid then some st.next else st.slots t
        next := st.next + 1 }) := by
  simp [TOState.get, h]

lemma get_none_next (st : TOState) (tid : Nat) (h : st.slots tid = none) :
    ((st.get tid).2).next = st.next + 1 := by
  rw [get_eq_of_none st tid h]

lemma get_none_slots (st : TOState) (tid : Nat) (h : st.slots tid = none)
    (t : Nat) :
    ((st.get tid).2).slots t = if t = tid then some st.next else st.slots t := by
  rw [get_eq_of_none st tid h]

lemma tovalid_init : TOValid TOState.init :=
  ⟨Nat.one_pos, fun t p h => by simp [TOState.init] at h,
   fun t₁ t₂ p h₁ _ => by simp [TOState.init] at h₁⟩

lemma tovalid_get (st : TOState) (tid : Nat) (h : TOValid st) :
    TOValid (st.get tid).2 := by
  obtain ⟨hn, hb, hinj⟩ := h
  cases hs : st.slots tid with
  | some q => rw [get_eq_of_some st tid q hs]; exact ⟨hn, hb, hinj⟩
  | none =>
      refine ⟨?_, ?_, ?_⟩
      · rw [get_none_next st tid hs]
        omega
      · intro t p hp
        rw [get_none_slots st tid hs] at hp
        rw [get_none_next st tid hs]
        by_cases ht : t = tid
        · rw [if_pos ht] at hp
          injection hp with hp'
          omega
        · rw [if_neg ht] at hp
          have := hb t p hp
          omega
      · intro t₁ t₂ p h₁ h₂
        rw [get_none_slots st tid hs] at h₁ h₂
        by_cases ht₁ : t₁ = tid <;> by_cases ht₂ : t₂ = tid
        · rw [ht₁, ht₂]
        · rw [if_pos ht₁] at h₁
          rw [if_neg ht₂] at h₂
          injection h₁ with e₁
          have := hb t₂ p h₂
          omega
        · rw [if_neg ht₁] at h₁
          rw [if_pos ht₂] at h₂
          injection h₂ with e₂
          have := hb t₁ p h₁
          omega
        · rw [if_neg ht₁] at h₁
          rw [if_neg ht₂] at h₂
          exact hinj t₁ t₂ p h₁ h₂

lemma texit_slots (st : TOState) (tid t : Nat) :
    (st.texit tid).slots t = if t = tid then none else st.slots t := rfl

lemma tovalid_texit (st : TOState) (tid : Nat) (h : TOValid st) :
    TOValid (st.texit tid) := by
  obtain ⟨hn, hb, hinj⟩ := h
  refine ⟨hn, ?_, ?_⟩
  · intro t p hp
    rw [texit_slots] at hp
    by_cases ht : t = tid
    · rw [if_pos ht] at hp; cases hp
    · rw [if_neg ht] at hp; exact hb t p hp
  · intro t₁ t₂ p h₁ h₂
    rw [texit_slots] at h₁ h₂
    by_cases ht₁ : t₁ = tid
    · rw [if_pos ht₁] at h₁; cases h₁
    · by_cases ht₂ : t₂ = tid
      · rw [if_pos ht₂] at h₂; cases h₂
      · rw [if_neg ht₁] at h₁
        rw [if_neg ht₂] at h₂
        exact hinj t₁ t₂ p h₁ h₂

lemma tovalid_runOps (ops : List TOp) (st : TOState) (h : TOValid st) :
    TOValid (runOps st ops) := by
  induction ops generalizing st with
  | nil => exact h
  | cons op rest ih =>
      cases op with
      | get tid =>
          show TOValid (runOps (st.get tid).2 rest)
          exact ih _ (tovalid_get st tid h)
      | texit tid =>
          show TOValid (runOps (st.texit tid) rest)
          exact ih _ (tovalid_texit st tid h)

lemma get_slot_self (st : TOState) (tid : Nat) :
    ((st.get tid).2).slots tid = some (st.get tid).1 := by
  cases hs : st.slots tid with
  | some q => rw [get_eq_of_some st tid q hs]; exact hs
  | none => rw [get_eq_of_none st tid hs]; simp

lemma get_pos (st : TOState) (tid : Nat) (h : TOValid st) :
    0 < (st.get tid).1 := by
  obtain ⟨hn, hb, _⟩ := h
  cases hs : st.slots tid with
  | some q => rw [get_eq_of_some st tid q hs]; exact (hb tid q hs).1
  | none => rw [get_eq_of_none st tid hs]; exact hn

/-- A thread's stored pointer survives any operation sequence that does
not contain that thread's exit: other threads' `get`s and exits touch
other slots, and a `get` on the thread itself takes the non-null
fast path. -/
lemma runOps_slot_persists (t p : Nat) :
    ∀ (ops : List TOp) (st : TOState), TOp.texit t ∉ ops →
      st.slots t = some p → (runOps st ops).slots t = some p := by
  intro ops
  induction ops with
  | nil => intro st _ hp; exact hp
  | cons op rest ih =>
      intro st hno hp
      have hno' : TOp.texit t ∉ rest := fun hm =>
        hno (List.mem_cons_of_mem _ hm)
      cases op with
      | get tid =>
          show (runOps (st.get tid).2 rest).slots t = some p
          refine ih _ hno' ?_
          cases hs : st.slots tid with
          | some q => rw [get_eq_of_some st tid q hs]; exact hp
          | none =>
              rw [get_eq_of_none st tid hs]
              dsimp
              have ht : ¬ t = tid := by
                intro he
                rw [he, hs] at hp
                cases hp
              rw [if_neg ht]
              exact hp
      | texit tid =>
          have hne : ¬ t = tid := by
            intro he
            exact hno (by rw [he]; exact List.mem_cons_self _ _)
          show (runOps (st.texit tid) rest).slots t = some p
          refine ih _ hno' ?_
          rw [texit_slots, if_neg hne]
          exact hp

/-- C9: starting from the holder's initial state, run any operations
`ops`, then `get()` on thread `t` (its pointer is `p`), then any
further operations `mid` that do not include `t`'s exit.  Then `p` is
non-null, a second `get()` on `t` returns `p` again, and a `get()` on a
different thread `u` returns a pointer different from `p`. -/
theorem holder_get_identity (ops mid : List TOp) (t u : Nat)
    (htu : t ≠ u) (hmid : TOp.texit t ∉ mid) :
    ((runOps TOState.init ops).get t).1 ≠ 0 ∧
    ((runOps (((runOps TOState.init ops).get t).2) mid).get t).1 =
      ((runOps TOState.init ops).get t).1 ∧
    ((((runOps (((runOps TOState.init ops).get t).2) mid).get t).2).get u).1 ≠
      ((runOps TOState.init ops).get t).1 := by
  set st0 := runOps TOState.init ops with hst0
  have hv0 : TOValid st0 := tovalid_runOps ops TOState.init tovalid_init
  have hppos : 0 < (st0.get t).1 := get_pos st0 t hv0
  have hv1 : TOValid (st0.get t).2 := tovalid_get st0 t hv0
  have hslot1 : ((st0.get t).2).slots t = some (st0.get t).1 :=
    get_slot_self st0 t
  set st1 := runOps ((st0.get t).2) mid with hst1
  have hv2 : TOValid st1 := tovalid_runOps mid _ hv1
  have hslot2 : st1.slots t = some (st0.get t).1 :=
    runOps_slot_persists t (st0.get t).1 mid _ hmid hslot1
  have hget2 : st1.get t = ((st0.get t).1, st1) :=
    get_eq_of_some st1 t (st0.get t).1 hslot2
  refine ⟨by omega, by rw [hget2], ?_⟩
  rw [hget2]
  obtain ⟨hn2, hb2, hinj2⟩ := hv2
  cases hs : st1.slots u with
  | some q =>
      rw [get_eq_of_some st1 u q hs]
      dsimp only
      intro he
      exact htu (hinj2 t u (st0.get t).1 hslot2 (by rw [hs, he]))
  | none =>
      rw [get_eq_of_none st1 u hs]
      dsimp only
      have := hb2 t (st0.get t).1 hslot2
      omega

/-- Witness for C9: with no surrounding operations, thread 0's pointer
is non-null, stable across a repeated `get()`, and distinct from
thread 1's pointer. -/
theorem holder_get_identity_witness :
    ((runOps TOState.init []).get 0).1 ≠ 0 ∧
    ((runOps (((runOps TOState.init []).get 0).2) []).get 0).1 =
      ((runOps TOState.init []).get 0).1 ∧
    ((((runOps (((runOps TOState.init []).get 0).2) []).get 0).2).get 1).1 ≠
      ((runOps TOState.init []).get 0).1 :=
  holder_get_identity [] [] 0 1 (by decide) (by simp)

/-- C10: the tail of `create_and_get` maps the `pthread_setspecific`
result code 0 to returning the freshly created pointer, `ENOMEM` to the
allocation error (`std::bad_alloc`), and any other nonzero code to a
system error carrying that code; the two errors propagate to the
caller as the `Except.error` outcome. -/
theorem create_and_get_error_model (p result : Nat) :
    (result = 0 → create_and_get_outcome p result = Except.ok p) ∧
    (result = ENOMEM →
      create_and_get_outcome p result = Except.error CreateError.allocError) ∧
    (result ≠ 0 → result ≠ ENOMEM →
      create_and_get_outcome p result =
        Except.error (CreateError.systemError result)) := by
  refine ⟨?_, ?_, ?_⟩
  · intro h
    simp [create_and_get_outcome, h]
  · intro h
    simp [create_and_get_outcome, h, ENOMEM]
  · intro h0 hmem
    simp [create_and_get_outcome, h0, hmem]

/-- Witness for C10: at result code 12 (`ENOMEM`) the outcome is the
allocation error. -/
theorem create_and_get_error_model_witness :
    create_and_get_outcome 5 12 = Except.error CreateError.allocError :=
  (create_and_get_error_model 5 12).2.1 rfl

end Asynclog
